import Mathlib

/-!
Verification of the `iterpipes3` pipeline library.

The first half of this file embeds the command formatter of
`src/iterpipes3/__init__.py` (`format` and `_shell_escape`): Python's
`str.replace`, `str.count` and `%`-interpolation are modelled as
structurally recursive functions over `List Char`, restricted to the
patterns the source actually feeds them (`'%' -> '%%'`, then
`'\x7b\x7d' -> '%s'`, then `%`-interpolation whose only reachable
specifiers are `%s` and `%%`).

The second half embeds the pipeline executor (`_run_pipeline`, `_popen`
and its feeder thread `write`, plus the helpers `_retcode`, `_consume`,
`call`, `check_call`).  Executions are modelled as functions from an
abstract process behaviour and consumer behaviour to an event trace plus
an outcome, making the ordering facts (spawn before error, join before
wait, terminate before propagation) explicit and decidable.
-/

namespace Iterpipes

/-! ### Formatter: `format` and `_shell_escape` -/

/-- Python `command.replace('%', '%%')`: left-to-right, every `'%'` is
doubled (from `format`, line 343 of `src/iterpipes3/__init__.py`). -/
def replacePercent : List Char → List Char
  | [] => []
  | c :: rest =>
    if c = '%' then '%' :: '%' :: replacePercent rest
    else c :: replacePercent rest

/-- Python `fmt.replace('\x7b\x7d', '%s')`: left-to-right, non-overlapping
(from `format`, line 343). -/
def replaceBraces : List Char → List Char
  | [] => []
  | [c] => [c]
  | c1 :: c2 :: rest =>
    if c1 = '\x7b' ∧ c2 = '\x7d' then '%' :: 's' :: replaceBraces rest
    else c1 :: replaceBraces (c2 :: rest)

/-- Python `command.count('\x7b\x7d')`: left-to-right, non-overlapping
(from `format`, line 340). -/
def countBraces : List Char → Nat
  | [] => 0
  | [_] => 0
  | c1 :: c2 :: rest =>
    if c1 = '\x7b' ∧ c2 = '\x7d' then countBraces rest + 1
    else countBraces (c2 :: rest)

/-- Python `fmt % tuple(args)` (from `format`, line 344), restricted to the
conversion specifiers reachable from `format`'s construction of `fmt`:
`%s` consumes one argument, `%%` is a literal percent; a dangling `%`, an
unreachable other specifier, too few or left-over arguments give `none`
(Python raises there). -/
def pyMod : List Char → List String → Option (List Char)
  | [], as => if as.isEmpty then some [] else none
  | [c], as =>
    if c = '%' then none
    else if as.isEmpty then some [c] else none
  | c1 :: c2 :: rest, as =>
    if c1 = '%' then
      if c2 = 's' then
        match as with
        | [] => none
        | a :: as2 => (pyMod rest as2).map (fun r => a.data ++ r)
      else if c2 = '%' then
        (pyMod rest as).map (fun r => '%' :: r)
      else none
    else (pyMod (c2 :: rest) as).map (fun r => c1 :: r)

/-- The five characters escaped by `_shell_escape`'s regular expression
`([ \t'\x22$])` (line 368). -/
def isEscapedChar (c : Char) : Bool :=
  c == ' ' || c == '\t' || c == '\x27' || c == '\x22' || c == '$'

/-- One step of `re.sub(r'([ \t'\x22$])', r'\\\1', s)`: a matched character
is prefixed with a backslash, all others pass through. -/
def shellEscapeChar (c : Char) : List Char :=
  if isEscapedChar c then ['\\', c] else [c]

/-- Model of `re.sub` over the whole string, character by character (the pattern is
a single-character class, so matches are single characters). -/
def escapeChars : List Char → List Char
  | [] => []
  | c :: rest => shellEscapeChar c ++ escapeChars rest

/-- Model of `_shell_escape` (lines 366-368). -/
def shell_escape (s : String) : String :=
  String.mk (escapeChars s.data)

/-- The exceptions `format` can raise: `arity` is the `TypeError` raised on
a placeholder/argument count mismatch (lines 340-342, the spec's
`FormatArityError`); `other` stands for any error of the `%` operator
itself (unreachable, as proved below). -/
inductive FormatError where
  | arity
  | other
deriving DecidableEq

/-- Model of `format` (lines 331-344): count check, percent doubling, placeholder
replacement, then `%`-interpolation of the escaped arguments. -/
def format (command : String) (args : List String) : Except FormatError String :=
  if countBraces command.data ≠ args.length then Except.error FormatError.arity
  else
    match pyMod (replaceBraces (replacePercent command.data)) (args.map shell_escape) with
    | some r => Except.ok (String.mk r)
    | none => Except.error FormatError.other

/-- Specification-side description of substitution: each `'\x7b\x7d'`
placeholder, scanned left to right, is replaced by the corresponding
element of `as`; used to state what `format` computes. -/
def substGeneric : List Char → List String → List Char
  | [], _ => []
  | [c], _ => [c]
  | c1 :: c2 :: rest, as =>
    if c1 = '\x7b' ∧ c2 = '\x7d' then
      match as with
      | a :: as2 => a.data ++ substGeneric rest as2
      | [] => substGeneric rest []
    else c1 :: substGeneric (c2 :: rest) as

/-! ### Executor: `_run_pipeline`, `_popen` and its feeder thread

The embedding keeps Python's exception-flow distinctions that the source
relies on: `except IOError` tests `errno`, `except Exception` does not
catch `GeneratorExit` (the signal a generator receives when its consumer
abandons it), and the feeder's `finally` closes the stdin handle on every
exit path. -/

/-- Python exceptions the executor creates, catches or forwards.  A value
of this type stands for one exception object, so propagation "of the
exact object" is equality. -/
inductive Exc where
  /-- `IOError` / `OSError` carrying an `errno` (the feeder tests it). -/
  | ioError (errnoCode : Nat)
  /-- `TypeError` with its message. -/
  | typeError (msg : String)
  /-- `subprocess.CalledProcessError` carrying `returncode` and the command
  string (the spec's `CommandFailedError`). -/
  | calledProcessError (returncode : Int) (command : String)
  /-- Any other user-defined `Exception`, identified by a tag. -/
  | userError (tag : Nat)
  /-- `GeneratorExit`: derives from `BaseException`, not `Exception`. -/
  | generatorExit
deriving DecidableEq

/-- The value of `errno.EPIPE`. -/
def EPIPE : Nat := 32

/-- Python `isinstance(e, Exception)`: everything here but `GeneratorExit`. -/
def isExceptionClass : Exc → Bool
  | Exc.generatorExit => false
  | _ => true

/-- Python `isinstance(e, CalledProcessError)`, as tested by `_retcode` (line 361). -/
def isCalledProcessErrorExc : Exc → Bool
  | Exc.calledProcessError _ _ => true
  | _ => false

/-- An element produced by iterating the `input` value: the feeder hands it
to `p.stdin.write`.  A binary pipe accepts `bytes`; `str` and `int`
elements make `write` raise `TypeError`. -/
inductive PyElem where
  | ebytes (bs : List Nat)
  | estr (s : List Char)
  | eint (n : Int)
deriving DecidableEq

/-- The Python values `_run_pipeline` can receive as `input`: `None`, a
text scalar, a bytes scalar, a non-iterable such as `int`, or a general
iterable yielding elements and then optionally raising an exception
mid-iteration. -/
inductive PyVal where
  | pyNone
  | pyStr (s : List Char)
  | pyBytes (bs : List Nat)
  | pyInt (n : Int)
  | pyIter (elems : List PyElem) (err : Option Exc)
deriving DecidableEq

/-- Model of `_is_iterable` (lines 392-394): `hasattr(x, '__iter__')`.  In Python 3
`str` and `bytes` are iterable, `None` and `int` are not. -/
def pyIsIterable : PyVal → Bool
  | PyVal.pyStr _ => true
  | PyVal.pyBytes _ => true
  | PyVal.pyIter _ _ => true
  | _ => false

/-- Python `type(x).__name__`, used in the invalid-input error message (line 373). -/
def pyTypeName : PyVal → String
  | PyVal.pyNone => "NoneType"
  | PyVal.pyStr _ => "str"
  | PyVal.pyBytes _ => "bytes"
  | PyVal.pyInt _ => "int"
  | PyVal.pyIter _ _ => "generator"

/-- Lines 375-376 of `_run_pipeline`:
`if isinstance(input, six.text_type): input = [input]` — only a text
scalar is wrapped into a one-element list; every other value is left as
it is. -/
def normalizeInput : PyVal → PyVal
  | PyVal.pyStr s => PyVal.pyIter [PyElem.estr s] none
  | v => v

/-- Python `iter(stdin)` as seen by the feeder's `for` loop: the elements yielded
in order, plus the exception the iterator raises after them (if any).
Iterating a `str` yields its one-character strings; iterating `bytes`
yields its byte values as `int`s (Python 3). -/
def pyElems : PyVal → List PyElem × Option Exc
  | PyVal.pyStr s => (s.map (fun c => PyElem.estr [c]), none)
  | PyVal.pyBytes bs => (bs.map (fun b => PyElem.eint (Int.ofNat b)), none)
  | PyVal.pyIter es err => (es, err)
  | _ => ([], none)

/-- Model of `p.stdin.write(x)` on the binary pipe: `bytes` are written (raising
`BrokenPipeError`, an `IOError` with `errno = EPIPE`, once the process
has closed its read side after accepting `cap` writes); `str` and `int`
arguments raise `TypeError` (Python 3 binary file object). -/
def fdWrite (cap : Option Nat) (n : Nat) (x : PyElem) : Except Exc (List Nat) :=
  match x with
  | PyElem.ebytes bs =>
    match cap with
    | some k => if n < k then Except.ok bs else Except.error (Exc.ioError EPIPE)
    | none => Except.ok bs
  | PyElem.estr _ => Except.error (Exc.typeError "a bytes-like object is required, not 'str'")
  | PyElem.eint _ => Except.error (Exc.typeError "a bytes-like object is required, not 'int'")

/-- Observable actions of the feeder thread (`write`, lines 399-409). -/
inductive FEv where
  /-- A successful `fd.write` of these bytes. -/
  | wrote (bs : List Nat)
  /-- The `except IOError` arm took the `errno == EPIPE` path and did
  nothing (line 404). -/
  | suppressedBrokenPipe
  /-- One of the `except` arms appended this exception to `write_excpts`. -/
  | capturedExc (e : Exc)
  /-- `fd.close()` in the `finally` (line 409). -/
  | closedStdin
deriving DecidableEq

/-- The `for x in xs: fd.write(x)` loop of the feeder: writes elements in
order until one raises; `n` counts writes already accepted by the pipe.
Returns the events of the successful writes and the exception that ended
the loop (`ierr` is what the iterator itself raises after its last
element). -/
def feedLoop (cap : Option Nat) : List PyElem → Option Exc → Nat → List FEv × Option Exc
  | [], ierr, _ => ([], ierr)
  | x :: rest, ierr, n =>
    match fdWrite cap n x with
    | Except.ok bs =>
      let r := feedLoop cap rest ierr (n + 1)
      (FEv.wrote bs :: r.1, r.2)
    | Except.error e => ([], some e)

/-- The feeder thread body `write(fd, xs)` (lines 399-409): the loop, then
`except IOError` (suppressing `EPIPE`, capturing other IO errors),
`except Exception` (capturing), and `finally: fd.close()` on every exit
path; a non-`Exception` such as `GeneratorExit` is not captured and
escapes the thread after the close.  Returns the event trace and the
final contents of `write_excpts`. -/
def writeThread (cap : Option Nat) (stdinVal : PyVal) : List FEv × List Exc :=
  let p := pyElems stdinVal
  let r := feedLoop cap p.1 p.2 0
  match r.2 with
  | none => (r.1 ++ [FEv.closedStdin], [])
  | some e =>
    match e with
    | Exc.ioError en =>
      if en = EPIPE then (r.1 ++ [FEv.suppressedBrokenPipe, FEv.closedStdin], [])
      else (r.1 ++ [FEv.capturedExc (Exc.ioError en), FEv.closedStdin], [Exc.ioError en])
    | Exc.generatorExit => (r.1 ++ [FEv.closedStdin], [])
    | e2 => (r.1 ++ [FEv.capturedExc e2, FEv.closedStdin], [e2])

/-- The behaviour of the spawned process, as far as the executor can
observe it: the stdout chunks the reads produce (in order), the exit
code `p.wait()` reports, and how many stdin writes it accepts before
closing its read side (`none` = it reads everything). -/
structure ProcBeh where
  stdoutChunks : List (List Nat)
  exitCode : Int
  stdinAccepts : Option Nat
deriving DecidableEq

/-- Observable actions of the executor's own (consumer-side) control flow. -/
inductive Ev where
  /-- `Popen(...)` (line 417). -/
  | spawned
  /-- One chunk handed to the caller by `yield x` (line 390). -/
  | yielded (chunk : List Nat)
  /-- `writer.join()` (line 425). -/
  | joinedFeeder
  /-- `p.terminate()` (line 432). -/
  | terminated
  /-- `p.wait()` returned this code (line 435). -/
  | waited (code : Int)
deriving DecidableEq

/-- How the caller consumes the output sequence: pull every element until
the generator finishes (`drain`), or stop pulling after `j` elements —
by `break`, by the caller's own loop body raising, or by dropping the
generator — which closes the generator (`abandonAfter j`;
`abandonAfter 0` never starts it). -/
inductive Consumer where
  | drain
  | abandonAfter (j : Nat)
deriving DecidableEq

/-- What the consumer observes of the generator at the end. -/
inductive GenOutcome where
  /-- Drained to a clean `StopIteration`. -/
  | exhausted
  /-- A pull (`next`) raised this exception. -/
  | raised (e : Exc)
  /-- Abandoned; the implied `close()` finished silently. -/
  | closedQuietly
  /-- Abandoned; `close()` raised this exception (a feeder-captured
  exception re-raised during the unwind). -/
  | closedRaised (e : Exc)
deriving DecidableEq

/-- The chunks the generator can yield: `p.stdout` reads if `stdout` is a
pipe, nothing if the caller redirected it (`p.stdout is None`, line 384). -/
def chunksAvailable (stdoutPiped : Bool) (pb : ProcBeh) : List (List Nat) :=
  if stdoutPiped then pb.stdoutChunks else []

/-- Model of `_popen`'s epilogue when the `with` body exits normally (the output was
drained): `finally: writer.join()`, re-raise a captured feeder exception
(which the outer `except Exception` turns into `terminate` + re-raise,
lines 430-433), else `p.wait()` and the non-zero exit check
(lines 434-437).  `write_excpts.pop()` pops the last element. -/
def exhaustTail (cmdStr : String) (hasFeeder : Bool) (captured : List Exc)
    (pb : ProcBeh) : List Ev × GenOutcome :=
  if hasFeeder then
    match captured.getLast? with
    | some e => ([Ev.joinedFeeder, Ev.terminated], GenOutcome.raised e)
    | none =>
      if pb.exitCode = 0 then ([Ev.joinedFeeder, Ev.waited pb.exitCode], GenOutcome.exhausted)
      else ([Ev.joinedFeeder, Ev.waited pb.exitCode],
            GenOutcome.raised (Exc.calledProcessError pb.exitCode cmdStr))
  else
    if pb.exitCode = 0 then ([Ev.waited pb.exitCode], GenOutcome.exhausted)
    else ([Ev.waited pb.exitCode],
          GenOutcome.raised (Exc.calledProcessError pb.exitCode cmdStr))

/-- Model of `_popen`'s epilogue when the generator is closed before exhaustion:
`GeneratorExit` is thrown in at `yield p`; the `finally` still joins the
feeder and re-raises a captured exception (then `except Exception`
terminates the process and re-raises), but a bare `GeneratorExit` is not
an `Exception`, so with nothing captured the process is neither
terminated nor waited for. -/
def abandonTail (hasFeeder : Bool) (captured : List Exc) : List Ev × GenOutcome :=
  if hasFeeder then
    match captured.getLast? with
    | some e => ([Ev.joinedFeeder, Ev.terminated], GenOutcome.closedRaised e)
    | none => ([Ev.joinedFeeder], GenOutcome.closedQuietly)
  else ([], GenOutcome.closedQuietly)

/-- One full execution of `_run_pipeline(command, input, ...)` under a
given process behaviour and consumer: the input type check (lines
371-373), text-scalar normalization (375-376), `_popen` with the feeder
thread when the input is iterable (396-437), lazy yielding of the output
chunks, and the drain/abandon epilogues.  Returns the executor's event
trace, the feeder's event trace, and the outcome the consumer observes. -/
def runPipeline (cmdStr : String) (inputVal : PyVal) (stdoutPiped : Bool)
    (pb : ProcBeh) (consumer : Consumer) : List Ev × List FEv × GenOutcome :=
  if consumer = Consumer.abandonAfter 0 then ([], [], GenOutcome.closedQuietly)
  else if inputVal = PyVal.pyNone ∨ pyIsIterable inputVal = true then
    let stdinVal := normalizeInput inputVal
    let hasFeeder := pyIsIterable stdinVal
    let fr := if hasFeeder then writeThread pb.stdinAccepts stdinVal else ([], [])
    let allChunks := chunksAvailable stdoutPiped pb
    match consumer with
    | Consumer.drain =>
      let tl := exhaustTail cmdStr hasFeeder fr.2 pb
      (Ev.spawned :: allChunks.map Ev.yielded ++ tl.1, fr.1, tl.2)
    | Consumer.abandonAfter j =>
      if allChunks.length < j then
        let tl := exhaustTail cmdStr hasFeeder fr.2 pb
        (Ev.spawned :: allChunks.map Ev.yielded ++ tl.1, fr.1, tl.2)
      else
        let tl := abandonTail hasFeeder fr.2
        (Ev.spawned :: (allChunks.take j).map Ev.yielded ++ tl.1, fr.1, tl.2)
  else
    ([], [],
     GenOutcome.raised (Exc.typeError
       ("input must be iterable or None, got '" ++ pyTypeName inputVal ++ "'")))

/-- The outcome of fully draining the output sequence (what `_consume` at
line 352 observes). -/
def drainOutcome (cmdStr : String) (inputVal : PyVal) (stdoutPiped : Bool)
    (pb : ProcBeh) : GenOutcome :=
  (runPipeline cmdStr inputVal stdoutPiped pb Consumer.drain).2.2

/-- Model of `_retcode` (lines 357-364): drain, return `e.returncode` on
`CalledProcessError`, `0` on success, re-raise anything else. -/
def retcodeModel : GenOutcome → Except Exc Int
  | GenOutcome.exhausted => Except.ok 0
  | GenOutcome.raised (Exc.calledProcessError c _) => Except.ok c
  | GenOutcome.raised e => Except.error e
  | GenOutcome.closedQuietly => Except.ok 0
  | GenOutcome.closedRaised e => Except.error e

/-- Model of `call(cmd, input)` (lines 298-311). -/
def callModel (cmdStr : String) (inputVal : PyVal) (stdoutPiped : Bool)
    (pb : ProcBeh) : Except Exc Int :=
  retcodeModel (drainOutcome cmdStr inputVal stdoutPiped pb)

/-- Model of `check_call(cmd, input)` (lines 313-329): drain and surface whatever
the drain raises. -/
def checkCallModel (cmdStr : String) (inputVal : PyVal) (stdoutPiped : Bool)
    (pb : ProcBeh) : Except Exc Unit :=
  match drainOutcome cmdStr inputVal stdoutPiped pb with
  | GenOutcome.exhausted => Except.ok ()
  | GenOutcome.raised e => Except.error e
  | GenOutcome.closedQuietly => Except.ok ()
  | GenOutcome.closedRaised e => Except.error e

/-- The contents of `write_excpts` after the feeder of an execution with
this input has finished (empty when no feeder is started). -/
def feederCapturedOf (v : PyVal) (pb : ProcBeh) : List Exc :=
  if pyIsIterable (normalizeInput v) = true then
    (writeThread pb.stdinAccepts (normalizeInput v)).2
  else []

/-- The feeder's event trace for an execution with this input (empty when
no feeder is started). -/
def feederTraceOf (v : PyVal) (pb : ProcBeh) : List FEv :=
  if pyIsIterable (normalizeInput v) = true then
    (writeThread pb.stdinAccepts (normalizeInput v)).1
  else []

/-- The bytes that reached the process's standard input, in order. -/
def writtenBytes : List FEv → List Nat
  | [] => []
  | FEv.wrote bs :: rest => bs ++ writtenBytes rest
  | _ :: rest => writtenBytes rest

/-- Is this event a yield to the caller? -/
def isYieldEv : Ev → Bool
  | Ev.yielded _ => true
  | _ => false

/-- Is this event an exit-code check (`p.wait()`)? -/
def isWaitEv : Ev → Bool
  | Ev.waited _ => true
  | _ => false

/-- No chunk is handed to the caller after the first `p.wait()`: the
exit-code check (and hence `CalledProcessError`) cannot come before the
drain is complete. -/
def noYieldAfterWait : List Ev → Bool
  | [] => true
  | Ev.waited _ :: rest => rest.all (fun e => !(isYieldEv e))
  | _ :: rest => noYieldAfterWait rest

/-! ### Formatter lemmas -/

theorem replacePercent_cons (c : Char) (t : List Char) :
    replacePercent (c :: t)
      = if c = '%' then '%' :: '%' :: replacePercent t else c :: replacePercent t := by
  simp [replacePercent]

theorem replaceBraces_braces (X : List Char) :
    replaceBraces ('\x7b' :: '\x7d' :: X) = '%' :: 's' :: replaceBraces X := by
  simp [replaceBraces]

theorem replaceBraces_cons_cons (c1 c2 : Char) (X : List Char)
    (h : ¬(c1 = '\x7b' ∧ c2 = '\x7d')) :
    replaceBraces (c1 :: c2 :: X) = c1 :: replaceBraces (c2 :: X) := by
  simp [replaceBraces, h]

theorem replaceBraces_pct (X : List Char) :
    replaceBraces ('%' :: X) = '%' :: replaceBraces X := by
  cases X with
  | nil => rfl
  | cons x xs => simp [replaceBraces]

theorem countBraces_braces (X : List Char) :
    countBraces ('\x7b' :: '\x7d' :: X) = countBraces X + 1 := by
  simp [countBraces]

theorem countBraces_cons_cons (c1 c2 : Char) (X : List Char)
    (h : ¬(c1 = '\x7b' ∧ c2 = '\x7d')) :
    countBraces (c1 :: c2 :: X) = countBraces (c2 :: X) := by
  simp [countBraces, h]

theorem substGeneric_braces (X : List Char) (a : String) (as : List String) :
    substGeneric ('\x7b' :: '\x7d' :: X) (a :: as) = a.data ++ substGeneric X as := by
  simp [substGeneric]

theorem substGeneric_cons_cons (c1 c2 : Char) (X : List Char) (as : List String)
    (h : ¬(c1 = '\x7b' ∧ c2 = '\x7d')) :
    substGeneric (c1 :: c2 :: X) as = c1 :: substGeneric (c2 :: X) as := by
  simp [substGeneric, h]

theorem pyMod_cons_ne (c : Char) (X : List Char) (as : List String) (h : ¬ c = '%') :
    pyMod (c :: X) as = (pyMod X as).map (fun r => c :: r) := by
  cases X with
  | nil =>
    cases as with
    | nil => simp [pyMod, h]
    | cons a as2 => simp [pyMod, h]
  | cons x xs => simp [pyMod, h]

theorem pyMod_pct_s (X : List Char) (as : List String) :
    pyMod ('%' :: 's' :: X) as
      = match as with
        | [] => none
        | a :: as2 => (pyMod X as2).map (fun r => a.data ++ r) := by
  simp [pyMod]

theorem pyMod_pct_pct (X : List Char) (as : List String) :
    pyMod ('%' :: '%' :: X) as = (pyMod X as).map (fun r => '%' :: r) := by
  simp [pyMod]

/-- The `%`-interpolation of the doubled-and-substituted template is
exactly placeholder substitution: it succeeds if and only if the
placeholder count equals the argument count, and then produces
`substGeneric`'s result. -/
theorem pyModReplaceAux : ∀ (n : Nat) (t : List Char) (as : List String), t.length ≤ n →
    pyMod (replaceBraces (replacePercent t)) as
      = if countBraces t = as.length then some (substGeneric t as) else none := by
  intro n
  induction n with
  | zero =>
    intro t as ht
    have ht0 : t = [] := List.eq_nil_of_length_eq_zero (Nat.le_zero.mp ht)
    subst ht0
    cases as <;> simp [replacePercent, replaceBraces, pyMod, countBraces, substGeneric]
  | succ n ih =>
    intro t as ht
    cases t with
    | nil =>
      cases as <;> simp [replacePercent, replaceBraces, pyMod, countBraces, substGeneric]
    | cons c t' =>
      by_cases hc : c = '%'
      · subst hc
        rw [replacePercent_cons, if_pos rfl, replaceBraces_pct, replaceBraces_pct,
            pyMod_pct_pct]
        have ht' : t'.length ≤ n := by simpa using Nat.le_of_succ_le_succ ht
        rw [ih t' as ht']
        have hcb : countBraces ('%' :: t') = countBraces t' := by
          cases t' with
          | nil => simp [countBraces]
          | cons c2 t'' => exact countBraces_cons_cons _ _ _ (by simp)
        have hsg : substGeneric ('%' :: t') as = '%' :: substGeneric t' as := by
          cases t' with
          | nil => simp [substGeneric]
          | cons c2 t'' => exact substGeneric_cons_cons _ _ _ _ (by simp)
        rw [hcb, hsg]
        split <;> simp
      · cases t' with
        | nil =>
          rw [replacePercent_cons, if_neg hc]
          show pyMod (replaceBraces [c]) as = _
          have h1 : replaceBraces [c] = [c] := rfl
          rw [h1, pyMod_cons_ne c [] as hc]
          cases as <;> simp [pyMod, countBraces, substGeneric]
        | cons c2 t'' =>
          by_cases hb : c = '\x7b' ∧ c2 = '\x7d'
          · obtain ⟨hb1, hb2⟩ := hb
            subst hb1; subst hb2
            have hP : replacePercent ('\x7b' :: '\x7d' :: t'')
                = '\x7b' :: '\x7d' :: replacePercent t'' := by
              rw [replacePercent_cons, if_neg (by decide), replacePercent_cons,
                  if_neg (by decide)]
            rw [hP, replaceBraces_braces, pyMod_pct_s]
            have ht'' : t''.length ≤ n := by
              have := ht
              simp only [List.length_cons] at this
              omega
            rw [countBraces_braces]
            cases as with
            | nil => simp
            | cons a as2 =>
              dsimp only
              rw [ih t'' as2 ht'', substGeneric_braces]
              by_cases hlen : countBraces t'' = as2.length
              · rw [if_pos hlen, if_pos (by simpa using hlen)]
                simp
              · rw [if_neg hlen, if_neg (by simpa using hlen)]
                simp
          · -- the head character passes through both replacements
            have hP1 : replacePercent (c :: c2 :: t'')
                = c :: replacePercent (c2 :: t'') := by
              rw [replacePercent_cons, if_neg hc]
            have hPx : ∃ x xs, replacePercent (c2 :: t'') = x :: xs
                ∧ ¬(c = '\x7b' ∧ x = '\x7d') := by
              by_cases h2 : c2 = '%'
              · subst h2
                refine ⟨'%', '%' :: replacePercent t'', ?_, ?_⟩
                · rw [replacePercent_cons, if_pos rfl]
                · intro hcontra
                  exact absurd hcontra.2 (by decide)
              · refine ⟨c2, replacePercent t'', ?_, ?_⟩
                · rw [replacePercent_cons, if_neg h2]
                · intro hcontra
                  exact hb ⟨hcontra.1, hcontra.2⟩
            obtain ⟨x, xs, hPx2, hxne⟩ := hPx
            have ht' : (c2 :: t'').length ≤ n := by simpa using Nat.le_of_succ_le_succ ht
            rw [hP1, hPx2, replaceBraces_cons_cons c x xs hxne, ← hPx2,
                pyMod_cons_ne c _ as hc, ih (c2 :: t'') as ht',
                countBraces_cons_cons c c2 t'' hb, substGeneric_cons_cons c c2 t'' as hb]
            split <;> simp

/-- Workhorse: `format`'s interpolation step, characterised. -/
theorem pyMod_replace (t : List Char) (as : List String) :
    pyMod (replaceBraces (replacePercent t)) as
      = if countBraces t = as.length then some (substGeneric t as) else none :=
  pyModReplaceAux t.length t as le_rfl

/-- On a template with no placeholders, substitution is the identity. -/
theorem substGeneric_noBraces : ∀ (n : Nat) (l : List Char), l.length ≤ n →
    countBraces l = 0 → substGeneric l [] = l := by
  intro n
  induction n with
  | zero =>
    intro l hl _
    have : l = [] := List.eq_nil_of_length_eq_zero (Nat.le_zero.mp hl)
    subst this
    rfl
  | succ n ih =>
    intro l hl hcb
    cases l with
    | nil => rfl
    | cons c1 l' =>
      cases l' with
      | nil => rfl
      | cons c2 l'' =>
        by_cases hb : c1 = '\x7b' ∧ c2 = '\x7d'
        · obtain ⟨h1, h2⟩ := hb
          subst h1; subst h2
          rw [countBraces_braces] at hcb
          exact absurd hcb (by omega)
        · rw [countBraces_cons_cons c1 c2 l'' hb] at hcb
          rw [substGeneric_cons_cons c1 c2 l'' [] hb,
              ih (c2 :: l'') (by simpa using Nat.le_of_succ_le_succ hl) hcb]

/-- Helper: `format`, fully characterised: the arity check decides everything, and
on a match the result is the placeholder substitution of the escaped
arguments (the `%` step never fails on `format`'s own construction). -/
theorem format_eq (command : String) (args : List String) :
    format command args =
      if countBraces command.data = args.length
      then Except.ok (String.mk (substGeneric command.data (args.map shell_escape)))
      else Except.error FormatError.arity := by
  unfold format
  by_cases hcnt : countBraces command.data = args.length
  · rw [if_neg (by simp [hcnt]), if_pos hcnt, pyMod_replace,
        if_pos (by simpa using hcnt)]
  · rw [if_pos hcnt, if_neg hcnt]

/-- C5: `format(template, args)` fails with the arity error (the spec's
`FormatArityError`, a `TypeError` in the source) exactly when the number
of `'\x7b\x7d'` placeholders differs from the number of arguments, and
succeeds exactly when they agree; in particular the two mismatched
example calls fail and the matched one succeeds. -/
theorem format_arity :
    (∀ (command : String) (args : List String),
      (format command args = Except.error FormatError.arity
        ↔ countBraces command.data ≠ args.length)
      ∧ ((∃ s, format command args = Except.ok s)
        ↔ countBraces command.data = args.length))
    ∧ format "f \x7b\x7d \x7b\x7d" ["a"] = Except.error FormatError.arity
    ∧ format "f \x7b\x7d \x7b\x7d" ["a", "b", "c"] = Except.error FormatError.arity
    ∧ format "f \x7b\x7d \x7b\x7d" ["a", "b"] = Except.ok "f a b" := by
  refine ⟨?_, rfl, rfl, rfl⟩
  intro command args
  rw [format_eq]
  by_cases hcnt : countBraces command.data = args.length
  · rw [if_pos hcnt]
    constructor
    · constructor
      · intro h
        exact absurd h (by simp)
      · intro h
        exact absurd hcnt h
    · constructor
      · intro _
        exact hcnt
      · intro _
        exact ⟨_, rfl⟩
  · rw [if_neg hcnt]
    constructor
    · constructor
      · intro _
        exact hcnt
      · intro _
        rfl
    · constructor
      · intro ⟨s, hs⟩
        exact absurd hs (by simp)
      · intro h
        exact absurd h hcnt

/-- C6: with as many placeholders as arguments, `format` replaces each
placeholder in order by the corresponding backslash-escaped argument;
in particular the documented example produces
`ls -l foo\ 1 | grep bar\$baz | wc`. -/
theorem format_substitution :
    (∀ (command : String) (args : List String),
      countBraces command.data = args.length →
      format command args
        = Except.ok (String.mk (substGeneric command.data (args.map shell_escape))))
    ∧ format "ls -l \x7b\x7d | grep \x7b\x7d | wc" ["foo 1", "bar$baz"]
        = Except.ok "ls -l foo\\ 1 | grep bar\\$baz | wc" := by
  refine ⟨?_, rfl⟩
  intro command args h
  rw [format_eq, if_pos h]

/-- Witness for C6 at a concrete input. -/
theorem format_substitution_witness :
    countBraces ("a \x7b\x7d" : String).data = (["x y"] : List String).length
    ∧ format "a \x7b\x7d" ["x y"] = Except.ok "a x\\ y" :=
  ⟨rfl, format_substitution.1 "a \x7b\x7d" ["x y"] rfl⟩

/-- C7: a successful `format` result that contains no `'\x7b\x7d'`
placeholder is a fixed point: formatting it again with no arguments
returns it unchanged. -/
theorem format_idempotent :
    ∀ (template : String) (args : List String) (r : String),
      format template args = Except.ok r →
      countBraces r.data = 0 →
      format r [] = Except.ok r := by
  intro template args r _ hcb
  rw [format_eq, if_pos (by simpa using hcb)]
  have hs : substGeneric r.data (([] : List String).map shell_escape) = r.data := by
    show substGeneric r.data [] = r.data
    exact substGeneric_noBraces r.data.length r.data le_rfl hcb
  rw [hs]

/-- Witness for C7 at a concrete input. -/
theorem format_idempotent_witness :
    format "ls \x7b\x7d" ["x y"] = Except.ok "ls x\\ y"
    ∧ countBraces ("ls x\\ y" : String).data = 0
    ∧ format "ls x\\ y" [] = Except.ok "ls x\\ y" :=
  ⟨rfl, rfl, format_idempotent "ls \x7b\x7d" ["x y"] "ls x\\ y" rfl rfl⟩

theorem escapeChars_append (l1 l2 : List Char) :
    escapeChars (l1 ++ l2) = escapeChars l1 ++ escapeChars l2 := by
  induction l1 with
  | nil => rfl
  | cons c rest ih => simp [escapeChars, ih]

/-- C10: the escaper inserts a backslash before exactly the five
characters space, tab, single quote, double quote and dollar, passes
every other character through unchanged (it distributes over
concatenation, so the single-character case determines it), and in
particular backslash, backtick, semicolon, newline and pipe come
through unescaped. -/
theorem shell_escape_characterization :
    (∀ c : Char,
      shell_escape (String.mk [c])
        = if c = ' ' ∨ c = '\t' ∨ c = '\x27' ∨ c = '\x22' ∨ c = '$'
          then String.mk ['\\', c] else String.mk [c])
    ∧ (∀ s t : String, shell_escape (s ++ t) = shell_escape s ++ shell_escape t)
    ∧ shell_escape "\\`;\n|" = "\\`;\n|" := by
  refine ⟨?_, ?_, rfl⟩
  · intro c
    by_cases h : c = ' ' ∨ c = '\t' ∨ c = '\x27' ∨ c = '\x22' ∨ c = '$'
    · have hb : isEscapedChar c = true := by
        simp only [isEscapedChar, Bool.or_eq_true, beq_iff_eq]
        tauto
      rw [if_pos h]
      show String.mk (escapeChars [c]) = _
      simp [escapeChars, shellEscapeChar, hb]
    · have hb : isEscapedChar c = false := by
        simp only [isEscapedChar, Bool.or_eq_false_iff, beq_eq_false_iff_ne, ne_eq]
        tauto
      rw [if_neg h]
      show String.mk (escapeChars [c]) = _
      simp [escapeChars, shellEscapeChar, hb]
  · intro s t
    show String.mk (escapeChars (s ++ t).data) = _
    have hdata : (s ++ t).data = s.data ++ t.data := by
      cases s; cases t; rfl
    rw [hdata, escapeChars_append]
    cases s; cases t; rfl

/-! ### Executor lemmas -/

theorem feedLoop_bytes_none (bss : List (List Nat)) (ierr : Option Exc) :
    ∀ n, feedLoop none (bss.map PyElem.ebytes) ierr n = (bss.map FEv.wrote, ierr) := by
  induction bss with
  | nil => intro n; rfl
  | cons bs rest ih => intro n; simp [feedLoop, fdWrite, ih (n + 1)]

theorem feedLoop_no_close (cap : Option Nat) (xs : List PyElem) (ierr : Option Exc) :
    ∀ n, FEv.closedStdin ∉ (feedLoop cap xs ierr n).1 := by
  induction xs with
  | nil => intro n; simp [feedLoop]
  | cons x rest ih =>
    intro n
    cases hw : fdWrite cap n x with
    | ok bs => simp [feedLoop, hw, ih (n + 1)]
    | error e => simp [feedLoop, hw]

theorem feedLoop_someCap_exc (k : Nat) (bss : List (List Nat)) :
    ∀ n, (feedLoop (some k) (bss.map PyElem.ebytes) none n).2 = none
      ∨ (feedLoop (some k) (bss.map PyElem.ebytes) none n).2 = some (Exc.ioError EPIPE) := by
  induction bss with
  | nil => intro n; exact Or.inl rfl
  | cons bs rest ih =>
    intro n
    by_cases hk : n < k
    · have : fdWrite (some k) n (PyElem.ebytes bs) = Except.ok bs := by
        simp [fdWrite, hk]
      rcases ih (n + 1) with h | h
      · exact Or.inl (by simp [feedLoop, this, h])
      · exact Or.inr (by simp [feedLoop, this, h])
    · have : fdWrite (some k) n (PyElem.ebytes bs) = Except.error (Exc.ioError EPIPE) := by
        simp [fdWrite, hk]
      exact Or.inr (by simp [feedLoop, this])

/-- A non-`EPIPE`, `Exception`-class failure of the input iterator itself
ends up (alone) in `write_excpts`. -/
theorem writeThread_bytes_iterExc (e : Exc) (bss : List (List Nat))
    (h1 : isExceptionClass e = true) (h2 : ∀ en, e = Exc.ioError en → en ≠ EPIPE) :
    (writeThread none (PyVal.pyIter (bss.map PyElem.ebytes) (some e))).2 = [e] := by
  unfold writeThread
  dsimp only [pyElems]
  rw [feedLoop_bytes_none]
  cases e with
  | ioError en =>
    have hne : en ≠ EPIPE := h2 en rfl
    simp [hne]
  | typeError msg => rfl
  | calledProcessError c s => rfl
  | userError t => rfl
  | generatorExit => simp [isExceptionClass] at h1

/-- The drained execution, unfolded (for valid input values). -/
theorem runPipeline_drain (cmdStr : String) (v : PyVal) (sp : Bool) (pb : ProcBeh)
    (hv : v = PyVal.pyNone ∨ pyIsIterable v = true) :
    runPipeline cmdStr v sp pb Consumer.drain =
      (Ev.spawned :: (chunksAvailable sp pb).map Ev.yielded
         ++ (exhaustTail cmdStr (pyIsIterable (normalizeInput v))
               (feederCapturedOf v pb) pb).1,
       feederTraceOf v pb,
       (exhaustTail cmdStr (pyIsIterable (normalizeInput v))
          (feederCapturedOf v pb) pb).2) := by
  unfold runPipeline feederCapturedOf feederTraceOf
  rw [if_neg (by simp), if_pos hv]
  by_cases hf : pyIsIterable (normalizeInput v) = true
  · simp only [hf, if_true, if_pos]
  · simp only [hf, if_false]
    simp

/-- The abandoned execution, unfolded (for valid input values, a consumer
that pulls at least once, and enough chunks that abandonment happens
before exhaustion). -/
theorem runPipeline_abandon (cmdStr : String) (v : PyVal) (sp : Bool) (pb : ProcBeh)
    (j : Nat) (hv : v = PyVal.pyNone ∨ pyIsIterable v = true) (hj0 : j ≠ 0)
    (hj : ¬ (chunksAvailable sp pb).length < j) :
    runPipeline cmdStr v sp pb (Consumer.abandonAfter j) =
      (Ev.spawned :: ((chunksAvailable sp pb).take j).map Ev.yielded
         ++ (abandonTail (pyIsIterable (normalizeInput v)) (feederCapturedOf v pb)).1,
       feederTraceOf v pb,
       (abandonTail (pyIsIterable (normalizeInput v)) (feederCapturedOf v pb)).2) := by
  unfold runPipeline feederCapturedOf feederTraceOf
  rw [if_neg (by simp [hj0]), if_pos hv]
  dsimp only
  rw [if_neg hj]
  by_cases hf : pyIsIterable (normalizeInput v) = true
  · simp only [hf, if_true, if_pos]
  · simp only [hf, if_false]
    simp

/-- Epilogue of a drain with an empty `write_excpts`. -/
theorem exhaustTail_nocap (cmdStr : String) (hf : Bool) (pb : ProcBeh) :
    exhaustTail cmdStr hf [] pb
      = ((if hf then [Ev.joinedFeeder] else []) ++ [Ev.waited pb.exitCode],
         if pb.exitCode = 0 then GenOutcome.exhausted
         else GenOutcome.raised (Exc.calledProcessError pb.exitCode cmdStr)) := by
  cases hf <;> by_cases h0 : pb.exitCode = 0 <;> simp [exhaustTail, h0]

/-- Epilogue of an abandonment with an empty `write_excpts`. -/
theorem abandonTail_nocap (hf : Bool) :
    abandonTail hf [] = ((if hf then [Ev.joinedFeeder] else []), GenOutcome.closedQuietly) := by
  cases hf <;> simp [abandonTail]

theorem noYieldAfterWait_yields (chunks : List (List Nat)) (rest : List Ev) :
    noYieldAfterWait (chunks.map Ev.yielded ++ rest) = noYieldAfterWait rest := by
  induction chunks with
  | nil => rfl
  | cons c cs ih =>
    show noYieldAfterWait (Ev.yielded c :: (cs.map Ev.yielded ++ rest)) = _
    rw [show noYieldAfterWait (Ev.yielded c :: (cs.map Ev.yielded ++ rest))
          = noYieldAfterWait (cs.map Ev.yielded ++ rest) from rfl, ih]

theorem count_terminated_yields (chunks : List (List Nat)) :
    (chunks.map Ev.yielded).count Ev.terminated = 0 :=
  List.count_eq_zero.mpr (by simp)

theorem all_noWait_yields (chunks : List (List Nat)) :
    (chunks.map Ev.yielded).all (fun ev => !(isWaitEv ev)) = true := by
  rw [List.all_eq_true]
  intro x hx
  obtain ⟨c, _, rfl⟩ := List.mem_map.mp hx
  rfl

/-! ### Executor claim theorems -/

/-- C1: for a well-typed input whose feeding captures no exception, the
drained execution raises `CalledProcessError` (the spec's
`CommandFailedError`), carrying the exit code and the command string,
exactly when the exit code is non-zero; the exit-code check never
precedes a yield to the caller; `check_call` raises it exactly when
the exit code is non-zero; `call` returns the exit code (`0` on
success); and `_retcode` re-raises any non-`CalledProcessError`
exception instead of converting it to a code. -/
theorem exitCode_reporting :
    (∀ (cmdStr : String) (v : PyVal) (sp : Bool) (pb : ProcBeh),
      (v = PyVal.pyNone ∨ pyIsIterable v = true) →
      feederCapturedOf v pb = [] →
      ((drainOutcome cmdStr v sp pb
          = GenOutcome.raised (Exc.calledProcessError pb.exitCode cmdStr)
        ↔ pb.exitCode ≠ 0)
       ∧ (pb.exitCode = 0 → drainOutcome cmdStr v sp pb = GenOutcome.exhausted)
       ∧ noYieldAfterWait (runPipeline cmdStr v sp pb Consumer.drain).1 = true
       ∧ (checkCallModel cmdStr v sp pb
            = Except.error (Exc.calledProcessError pb.exitCode cmdStr)
          ↔ pb.exitCode ≠ 0)
       ∧ callModel cmdStr v sp pb = Except.ok pb.exitCode))
    ∧ (∀ e : Exc, isCalledProcessErrorExc e = false →
        retcodeModel (GenOutcome.raised e) = Except.error e) := by
  constructor
  · intro cmdStr v sp pb hv hcap
    have hrun := runPipeline_drain cmdStr v sp pb hv
    rw [hcap, exhaustTail_nocap] at hrun
    have hout : drainOutcome cmdStr v sp pb
        = if pb.exitCode = 0 then GenOutcome.exhausted
          else GenOutcome.raised (Exc.calledProcessError pb.exitCode cmdStr) := by
      rw [drainOutcome, hrun]
    refine ⟨?_, ?_, ?_, ?_, ?_⟩
    · by_cases h0 : pb.exitCode = 0
      · rw [hout, if_pos h0]
        constructor
        · intro h
          exact absurd h (by simp)
        · intro h
          exact absurd h0 h
      · rw [hout, if_neg h0]
        exact ⟨fun _ => h0, fun _ => rfl⟩
    · intro h0
      rw [hout, if_pos h0]
    · rw [hrun]
      dsimp only
      rw [List.cons_append,
          show ∀ l, noYieldAfterWait (Ev.spawned :: l) = noYieldAfterWait l from fun _ => rfl,
          noYieldAfterWait_yields]
      cases hb : pyIsIterable (normalizeInput v) <;> rfl
    · rw [checkCallModel, hout]
      by_cases h0 : pb.exitCode = 0
      · rw [if_pos h0]
        constructor
        · intro h
          exact absurd h (by simp)
        · intro h
          exact absurd h0 h
      · rw [if_neg h0]
        exact ⟨fun _ => h0, fun _ => rfl⟩
    · rw [callModel, hout]
      by_cases h0 : pb.exitCode = 0
      · rw [if_pos h0, h0]
        rfl
      · rw [if_neg h0]
        rfl
  · intro e he
    cases e with
    | calledProcessError c s => simp [isCalledProcessErrorExc] at he
    | ioError en => rfl
    | typeError msg => rfl
    | userError t => rfl
    | generatorExit => rfl

/-- Witness for C1 at a concrete input: `input=None`, exit code 1. -/
theorem exitCode_reporting_witness :
    feederCapturedOf PyVal.pyNone ⟨[[65]], 1, none⟩ = []
    ∧ callModel "false" PyVal.pyNone true ⟨[[65]], 1, none⟩ = Except.ok 1 :=
  ⟨rfl,
   (exitCode_reporting.1 "false" PyVal.pyNone true ⟨[[65]], 1, none⟩
     (Or.inl rfl) rfl).2.2.2.2⟩

/-- C2 counterexample: an input iterator that raises `IOError(EPIPE)`
mid-iteration is silently swallowed by the feeder's `except IOError`
arm — the drain completes without re-raising it, contradicting the
claim that the exact exception is always re-raised to the caller. -/
theorem input_epipe_swallowed_counterexample :
    drainOutcome "cat" (PyVal.pyIter [PyElem.ebytes [97]] (some (Exc.ioError 32))) true
        ⟨[[10]], 0, none⟩ = GenOutcome.exhausted
    ∧ GenOutcome.exhausted ≠ GenOutcome.raised (Exc.ioError 32) :=
  ⟨rfl, by decide⟩

/-- C2 amended: when the input sequence raises any `Exception`-class
exception other than an `IOError` with the broken-pipe `errno`
mid-iteration, the drained execution re-raises exactly that exception,
taking precedence over exit-code checking (the conclusion holds for
every exit code, and no `CalledProcessError` is observed); an
`IOError(EPIPE)` from the iterator is instead suppressed like a broken
pipe during writing. -/
theorem inputError_propagation :
    ∀ (cmdStr : String) (sp : Bool) (bss : List (List Nat)) (e : Exc)
      (chunks : List (List Nat)) (code : Int),
      isExceptionClass e = true →
      (∀ en, e = Exc.ioError en → en ≠ EPIPE) →
      drainOutcome cmdStr (PyVal.pyIter (bss.map PyElem.ebytes) (some e)) sp
        ⟨chunks, code, none⟩ = GenOutcome.raised e := by
  intro cmdStr sp bss e chunks code h1 h2
  have hv : PyVal.pyIter (bss.map PyElem.ebytes) (some e) = PyVal.pyNone
      ∨ pyIsIterable (PyVal.pyIter (bss.map PyElem.ebytes) (some e)) = true := Or.inr rfl
  rw [drainOutcome, runPipeline_drain _ _ _ _ hv]
  have hcap : feederCapturedOf (PyVal.pyIter (bss.map PyElem.ebytes) (some e))
      ⟨chunks, code, none⟩ = [e] := by
    have hred : feederCapturedOf (PyVal.pyIter (bss.map PyElem.ebytes) (some e))
        ⟨chunks, code, none⟩
        = (writeThread none (PyVal.pyIter (bss.map PyElem.ebytes) (some e))).2 := rfl
    rw [hred]
    exact writeThread_bytes_iterExc e bss h1 h2
  rw [hcap]
  have hf : pyIsIterable (normalizeInput (PyVal.pyIter (bss.map PyElem.ebytes) (some e)))
      = true := rfl
  rw [hf]
  simp [exhaustTail]

/-- Witness for C2 (amended) at a concrete input. -/
theorem inputError_propagation_witness :
    isExceptionClass (Exc.userError 7) = true
    ∧ drainOutcome "grep foo" (PyVal.pyIter [PyElem.ebytes [97]] (some (Exc.userError 7)))
        true ⟨[[10]], 3, none⟩ = GenOutcome.raised (Exc.userError 7) :=
  ⟨rfl,
   inputError_propagation "grep foo" true [[97]] (Exc.userError 7) [[10]] 3 rfl
     (fun en h => by cases h)⟩

/-- C3 counterexample: an `IOError` with the broken-pipe `errno` raised by
the input *iterator* (not by a write) is suppressed rather than
captured, contradicting the claim that every exception other than a
broken pipe while writing is captured. -/
theorem feeder_iterEpipe_counterexample :
    (writeThread none (PyVal.pyIter [] (some (Exc.ioError 32)))).2 = []
    ∧ ([] : List Exc) ≠ [Exc.ioError 32] :=
  ⟨rfl, by decide⟩

/-- C3 amended: the feeder closes the stdin handle exactly once on every
exit path; it suppresses an `IOError` with the broken-pipe `errno`
whether the write raised it (a byte-only input against a process that
stops reading captures nothing, for every cut-off) or the iterator
itself raised it; and it captures every other `Exception`-class
exception raised while iterating or writing. -/
theorem feeder_behavior :
    (∀ (cap : Option Nat) (v : PyVal),
      (writeThread cap v).1.count FEv.closedStdin = 1)
    ∧ (∀ (k : Nat) (bss : List (List Nat)),
      (writeThread (some k) (PyVal.pyIter (bss.map PyElem.ebytes) none)).2 = [])
    ∧ (∀ (e : Exc) (bss : List (List Nat)),
      isExceptionClass e = true → (∀ en, e = Exc.ioError en → en ≠ EPIPE) →
      (writeThread none (PyVal.pyIter (bss.map PyElem.ebytes) (some e))).2 = [e])
    ∧ (∀ (s : List Char) (rest : List PyElem),
      (writeThread none (PyVal.pyIter (PyElem.estr s :: rest) none)).2
        = [Exc.typeError "a bytes-like object is required, not 'str'"]) := by
  refine ⟨?_, ?_, ?_, ?_⟩
  · intro cap v
    have h0 : (feedLoop cap (pyElems v).1 (pyElems v).2 0).1.count FEv.closedStdin = 0 :=
      List.count_eq_zero.mpr (feedLoop_no_close cap (pyElems v).1 (pyElems v).2 0)
    unfold writeThread
    cases hx : (feedLoop cap (pyElems v).1 (pyElems v).2 0).2 with
    | none =>
      simp only [hx]
      rw [List.count_append, h0]
      rfl
    | some e =>
      simp only [hx]
      cases e with
      | ioError en =>
        dsimp only
        by_cases hen : en = EPIPE
        · rw [if_pos hen, List.count_append, h0]
          rfl
        · rw [if_neg hen, List.count_append, h0]
          rfl
      | typeError msg =>
        dsimp only
        rw [List.count_append, h0]
        rfl
      | calledProcessError c s =>
        dsimp only
        rw [List.count_append, h0]
        rfl
      | userError t =>
        dsimp only
        rw [List.count_append, h0]
        rfl
      | generatorExit =>
        dsimp only
        rw [List.count_append, h0]
        rfl
  · intro k bss
    unfold writeThread
    dsimp only [pyElems]
    rcases feedLoop_someCap_exc k bss 0 with h | h <;> simp [h]
  · intro e bss h1 h2
    exact writeThread_bytes_iterExc e bss h1 h2
  · intro s rest
    unfold writeThread
    dsimp only [pyElems]
    rfl

/-- Witness for C3 (amended) at a concrete input. -/
theorem feeder_behavior_witness :
    isExceptionClass (Exc.typeError "boom") = true
    ∧ (writeThread none (PyVal.pyIter [PyElem.ebytes [1]] (some (Exc.typeError "boom")))).2
        = [Exc.typeError "boom"] :=
  ⟨rfl, feeder_behavior.2.2.1 (Exc.typeError "boom") [[1]] rfl (fun en h => by cases h)⟩

/-- C4 counterexample: abandoning the output sequence after one chunk of a
zero-feeder execution closes the generator quietly — `p.terminate()` is
never called (the `GeneratorExit` unwinding the generator is not caught
by `except Exception`), contradicting the claim that the subprocess is
terminated whenever consumption ends before normal exhaustion. -/
theorem abandon_no_terminate_counterexample :
    (runPipeline "yes" PyVal.pyNone true ⟨[[121], [121], [121]], 0, none⟩
        (Consumer.abandonAfter 1)).1.count Ev.terminated = 0
    ∧ (runPipeline "yes" PyVal.pyNone true ⟨[[121], [121], [121]], 0, none⟩
        (Consumer.abandonAfter 1)).2.2 = GenOutcome.closedQuietly :=
  ⟨rfl, rfl⟩

/-- Helper: a non-empty `write_excpts` means a feeder was started. -/
theorem feeder_of_captured (v : PyVal) (pb : ProcBeh) (e : Exc)
    (hlast : (feederCapturedOf v pb).getLast? = some e) :
    pyIsIterable (normalizeInput v) = true := by
  by_contra hf'
  unfold feederCapturedOf at hlast
  rw [if_neg hf'] at hlast
  simp at hlast

/-- C4 amended: on early abandonment (which is also what a caller's loop
body raising leads to) with nothing captured by the feeder, the
executor performs no exit-code check, still joins the feeder when one
exists, and does *not* terminate the subprocess; the subprocess is
terminated — after the join, with no exit-code check, before the
exception reaches the caller — exactly when the executor's own
consumption context raises, i.e. when a feeder-captured exception is
re-raised at join time, both when the output was fully drained and
when it was abandoned early. -/
theorem termination_policy :
    (∀ (cmdStr : String) (v : PyVal) (sp : Bool) (pb : ProcBeh) (j : Nat),
      (v = PyVal.pyNone ∨ pyIsIterable v = true) →
      feederCapturedOf v pb = [] →
      j + 1 ≤ (chunksAvailable sp pb).length →
      ((runPipeline cmdStr v sp pb (Consumer.abandonAfter (j + 1))).1.count Ev.terminated = 0
       ∧ (runPipeline cmdStr v sp pb (Consumer.abandonAfter (j + 1))).1.all
           (fun ev => !(isWaitEv ev)) = true
       ∧ (runPipeline cmdStr v sp pb (Consumer.abandonAfter (j + 1))).2.2
           = GenOutcome.closedQuietly
       ∧ (pyIsIterable (normalizeInput v) = true →
          Ev.joinedFeeder ∈ (runPipeline cmdStr v sp pb (Consumer.abandonAfter (j + 1))).1)))
    ∧ (∀ (cmdStr : String) (v : PyVal) (sp : Bool) (pb : ProcBeh) (e : Exc),
      (v = PyVal.pyNone ∨ pyIsIterable v = true) →
      (feederCapturedOf v pb).getLast? = some e →
      (Ev.terminated ∈ (runPipeline cmdStr v sp pb Consumer.drain).1
       ∧ Ev.joinedFeeder ∈ (runPipeline cmdStr v sp pb Consumer.drain).1
       ∧ (runPipeline cmdStr v sp pb Consumer.drain).1.all (fun ev => !(isWaitEv ev)) = true
       ∧ drainOutcome cmdStr v sp pb = GenOutcome.raised e))
    ∧ (∀ (cmdStr : String) (v : PyVal) (sp : Bool) (pb : ProcBeh) (e : Exc) (j : Nat),
      (v = PyVal.pyNone ∨ pyIsIterable v = true) →
      (feederCapturedOf v pb).getLast? = some e →
      j + 1 ≤ (chunksAvailable sp pb).length →
      (Ev.terminated ∈ (runPipeline cmdStr v sp pb (Consumer.abandonAfter (j + 1))).1
       ∧ Ev.joinedFeeder ∈ (runPipeline cmdStr v sp pb (Consumer.abandonAfter (j + 1))).1
       ∧ (runPipeline cmdStr v sp pb (Consumer.abandonAfter (j + 1))).1.all
           (fun ev => !(isWaitEv ev)) = true
       ∧ (runPipeline cmdStr v sp pb (Consumer.abandonAfter (j + 1))).2.2
           = GenOutcome.closedRaised e)) := by
  refine ⟨?_, ?_, ?_⟩
  · intro cmdStr v sp pb j hv hcap hj
    have hrun := runPipeline_abandon cmdStr v sp pb (j + 1) hv (by omega) (by omega)
    rw [hcap, abandonTail_nocap] at hrun
    rw [hrun]
    dsimp only
    refine ⟨?_, ?_, ?_, ?_⟩
    · rw [List.cons_append, List.count_cons, List.count_append,
          count_terminated_yields]
      cases hb : pyIsIterable (normalizeInput v) <;> rfl
    · rw [List.cons_append, List.all_cons, List.all_append, all_noWait_yields]
      cases hb : pyIsIterable (normalizeInput v) <;> rfl
    · rfl
    · intro hjf
      rw [hjf]
      simp
  · intro cmdStr v sp pb e hv hlast
    have hrun := runPipeline_drain cmdStr v sp pb hv
    have hET : exhaustTail cmdStr (pyIsIterable (normalizeInput v))
        (feederCapturedOf v pb) pb
        = ([Ev.joinedFeeder, Ev.terminated], GenOutcome.raised e) := by
      rw [feeder_of_captured v pb e hlast]
      simp [exhaustTail, hlast]
    rw [hET] at hrun
    rw [hrun]
    dsimp only
    refine ⟨?_, ?_, ?_, ?_⟩
    · simp
    · simp
    · rw [List.cons_append, List.all_cons, List.all_append, all_noWait_yields]
      rfl
    · rw [drainOutcome, hrun]
  · intro cmdStr v sp pb e j hv hlast hj
    have hrun := runPipeline_abandon cmdStr v sp pb (j + 1) hv (by omega) (by omega)
    have hAT : abandonTail (pyIsIterable (normalizeInput v)) (feederCapturedOf v pb)
        = ([Ev.joinedFeeder, Ev.terminated], GenOutcome.closedRaised e) := by
      rw [feeder_of_captured v pb e hlast]
      simp [abandonTail, hlast]
    rw [hAT] at hrun
    rw [hrun]
    dsimp only
    refine ⟨?_, ?_, ?_, ?_⟩
    · simp
    · simp
    · rw [List.cons_append, List.all_cons, List.all_append, all_noWait_yields]
      rfl
    · rfl

/-- Witness for C4 (amended) at a concrete input: a `str` element makes the
feeder capture a `TypeError`, whose re-raise at join time terminates
the process, on the drained execution and on an execution abandoned
after its first chunk alike. -/
theorem termination_policy_witness :
    (feederCapturedOf (PyVal.pyIter [PyElem.estr ['a']] none) ⟨[[10]], 0, none⟩).getLast?
      = some (Exc.typeError "a bytes-like object is required, not 'str'")
    ∧ Ev.terminated ∈ (runPipeline "cat" (PyVal.pyIter [PyElem.estr ['a']] none) true
        ⟨[[10]], 0, none⟩ Consumer.drain).1
    ∧ (runPipeline "cat" (PyVal.pyIter [PyElem.estr ['a']] none) true
        ⟨[[10]], 0, none⟩ (Consumer.abandonAfter 1)).2.2
        = GenOutcome.closedRaised (Exc.typeError "a bytes-like object is required, not 'str'") :=
  ⟨rfl,
   (termination_policy.2.1 "cat" (PyVal.pyIter [PyElem.estr ['a']] none) true ⟨[[10]], 0, none⟩
     (Exc.typeError "a bytes-like object is required, not 'str'") (Or.inr rfl) rfl).1,
   (termination_policy.2.2 "cat" (PyVal.pyIter [PyElem.estr ['a']] none) true ⟨[[10]], 0, none⟩
     (Exc.typeError "a bytes-like object is required, not 'str'") 0 (Or.inr rfl) rfl
     (by decide)).2.2.2⟩

/-- C8: a value that is neither `None` nor iterable makes the execution
raise a `TypeError` naming the offending type, with empty executor and
feeder traces — in particular no process is spawned — for every consumer
that starts the generator at all. -/
theorem invalid_input_before_spawn :
    ∀ (cmdStr : String) (v : PyVal) (sp : Bool) (pb : ProcBeh) (consumer : Consumer),
      pyIsIterable v = false → v ≠ PyVal.pyNone → consumer ≠ Consumer.abandonAfter 0 →
      runPipeline cmdStr v sp pb consumer
        = ([], [],
           GenOutcome.raised (Exc.typeError
             ("input must be iterable or None, got '" ++ pyTypeName v ++ "'"))) := by
  intro cmdStr v sp pb consumer hiter hnone hcons
  unfold runPipeline
  rw [if_neg hcons, if_neg]
  rintro (h | h)
  · exact hnone h
  · rw [hiter] at h
    exact absurd h (by decide)

/-- Witness for C8 at a concrete input: `input=5`. -/
theorem invalid_input_before_spawn_witness :
    pyIsIterable (PyVal.pyInt 5) = false
    ∧ runPipeline "wc -l" (PyVal.pyInt 5) true ⟨[], 0, none⟩ Consumer.drain
        = ([], [], GenOutcome.raised
            (Exc.typeError "input must be iterable or None, got 'int'")) :=
  ⟨rfl,
   invalid_input_before_spawn "wc -l" (PyVal.pyInt 5) true ⟨[], 0, none⟩ Consumer.drain
     rfl (by decide) (by decide)⟩

/-- C9: the text-scalar half of the claim holds — a `str` scalar is
normalized to the one-element list containing it, so the two executions
are identical — but a `bytes` scalar is *not* normalized: it is
iterated as `int`s, the first write raises a `TypeError` (captured and
re-raised at drain) and no bytes reach stdin, whereas the one-element
list `[b'H']` writes its byte. -/
theorem scalar_input_divergence :
    (∀ (cmdStr : String) (s : List Char) (sp : Bool) (pb : ProcBeh) (consumer : Consumer),
      runPipeline cmdStr (PyVal.pyStr s) sp pb consumer
        = runPipeline cmdStr (PyVal.pyIter [PyElem.estr s] none) sp pb consumer)
    ∧ writtenBytes (runPipeline "cat" (PyVal.pyBytes [72]) true ⟨[], 0, none⟩
        Consumer.drain).2.1 = []
    ∧ writtenBytes (runPipeline "cat" (PyVal.pyIter [PyElem.ebytes [72]] none) true
        ⟨[], 0, none⟩ Consumer.drain).2.1 = [72]
    ∧ ([] : List Nat) ≠ [72]
    ∧ drainOutcome "cat" (PyVal.pyBytes [72]) true ⟨[], 0, none⟩
        = GenOutcome.raised (Exc.typeError "a bytes-like object is required, not 'int'") := by
  refine ⟨?_, rfl, rfl, by decide, rfl⟩
  intro cmdStr s sp pb consumer
  unfold runPipeline
  by_cases hcons : consumer = Consumer.abandonAfter 0
  · rw [if_pos hcons, if_pos hcons]
  · rw [if_neg hcons, if_neg hcons]
    rfl

end Iterpipes
